import Mathlib

/-!
Shallow embedding of the Snake game engine from `src/App.tsx`.

The engine state lives in React `useState` cells (`snake`, `food`, `direction`,
`gameState`, `score`, `highScore`); we gather them into a `Game` record and
translate each handler into a state-passing function.  `Math.random()` sampling
in `generateFood` is modelled by an explicit list of candidate cells (the
successive samples); the unbounded `do/while` rejection loop becomes structural
recursion over that list, returning `none` when the supplied samples are
exhausted (modelling divergence of the loop).  JavaScript `parseInt` returning
`NaN` is modelled by `Option Int` with `none` for `NaN`.
-/

namespace SnakeApp

/-- `interface Position { x: number; y: number }` — grid cells; coordinates may
go negative when the head steps off the board, so we use `Int`. -/
@[ext]
structure Position where
  x : Int
  y : Int
deriving DecidableEq, Repr

/-- `type Direction = 'UP' | 'DOWN' | 'LEFT' | 'RIGHT'` -/
inductive Direction where
  | UP
  | DOWN
  | LEFT
  | RIGHT
deriving DecidableEq, Repr

/-- `type GameState = 'START' | 'PLAYING' | 'PAUSED' | 'GAME_OVER'`
(spec names: READY, RUNNING, PAUSED, ENDED). -/
inductive GameState where
  | START
  | PLAYING
  | PAUSED
  | GAME_OVER
deriving DecidableEq, Repr

/-- `const INITIAL_SNAKE = [{ x: 10, y: 10 }]` -/
def INITIAL_SNAKE : List Position := [{ x := 10, y := 10 }]

/-- `const INITIAL_FOOD = { x: 15, y: 15 }` -/
def INITIAL_FOOD : Position := { x := 15, y := 15 }

/-- `const INITIAL_DIRECTION: Direction = 'RIGHT'` -/
def INITIAL_DIRECTION : Direction := Direction.RIGHT

/-- The React state cells of `App`, gathered into one record. -/
structure Game where
  snake : List Position
  food : Position
  direction : Direction
  gameState : GameState
  score : Int
  highScore : Int
deriving DecidableEq, Repr

/-- The occupancy test used in both `generateFood` and `checkCollision`:
`segment.x === c.x && segment.y === c.y`. -/
def sameCell (segment c : Position) : Bool :=
  segment.x == c.x && segment.y == c.y

/-- `generateFood`: rejection sampling.  The candidate list stands for the
successive outputs of `Math.floor(Math.random() * gridWidth/Height)`; the
`do { … } while (occupied)` loop keeps the first candidate not occupied by the
snake, and `none` models the loop never terminating (samples exhausted). -/
def generateFood (currentSnake : List Position) : List Position → Option Position
  | [] => none
  | newFood :: rest =>
    if currentSnake.any fun segment => sameCell segment newFood then
      generateFood currentSnake rest
    else
      some newFood

/-- `checkCollision(head, body)`: wall collision against `[0,gridWidth) ×
[0,gridHeight)`, then self collision against every cell of `body`. -/
def checkCollision (gridWidth gridHeight : Int) (head : Position)
    (body : List Position) : Bool :=
  if head.x < 0 ∨ head.x ≥ gridWidth ∨ head.y < 0 ∨ head.y ≥ gridHeight then
    true
  else
    body.any fun segment => sameCell segment head

/-- The head displacement `switch (direction)` in `moveSnake`. -/
def moveHead (direction : Direction) (p : Position) : Position :=
  match direction with
  | Direction.UP => { p with y := p.y - 1 }
  | Direction.DOWN => { p with y := p.y + 1 }
  | Direction.LEFT => { p with x := p.x - 1 }
  | Direction.RIGHT => { p with x := p.x + 1 }

/-- `const head = { ...newSnake[0] }` moved one step in the current
direction. -/
def newHead (g : Game) : Position :=
  moveHead g.direction (g.snake.headD { x := 0, y := 0 })

/-- `moveSnake`: one tick.  On collision, set `gameState` to `GAME_OVER` and
return the snake (state otherwise) unchanged.  Otherwise unshift the new head;
if it equals the food, add 10 to the score, push the high score if exceeded,
and regenerate food avoiding the grown snake; otherwise pop the tail. -/
def moveSnake (gridWidth gridHeight : Int) (candidates : List Position)
    (g : Game) : Option Game :=
  let head := newHead g
  if checkCollision gridWidth gridHeight head g.snake then
    some { g with gameState := GameState.GAME_OVER }
  else
    let newSnake := head :: g.snake
    if head = g.food then
      let newScore := g.score + 10
      (generateFood newSnake candidates).map fun newFood =>
        { g with snake := newSnake, food := newFood, score := newScore,
                 highScore := if newScore > g.highScore then newScore
                              else g.highScore }
    else
      some { g with snake := newSnake.dropLast }

/-- `String.prototype.toLowerCase()` for the ASCII key names involved. -/
def jsToLower (s : String) : String :=
  String.mk (s.toList.map Char.toLower)

/-- `handleKeyPress`: ignored unless `gameState === 'PLAYING'`; switches on
`e.key.toLowerCase()`; opposite directions are rejected; spacebar pauses. -/
def handleKeyPress (key : String) (g : Game) : Game :=
  if g.gameState ≠ GameState.PLAYING then g
  else
    let k := jsToLower key
    if k = "arrowup" ∨ k = "w" then
      { g with direction :=
          if g.direction ≠ Direction.DOWN then Direction.UP else g.direction }
    else if k = "arrowdown" ∨ k = "s" then
      { g with direction :=
          if g.direction ≠ Direction.UP then Direction.DOWN else g.direction }
    else if k = "arrowleft" ∨ k = "a" then
      { g with direction :=
          if g.direction ≠ Direction.RIGHT then Direction.LEFT else g.direction }
    else if k = "arrowright" ∨ k = "d" then
      { g with direction :=
          if g.direction ≠ Direction.LEFT then Direction.RIGHT else g.direction }
    else if k = " " then
      { g with gameState := GameState.PAUSED }
    else g

/-- `handleTouch(direction)`: same arbitration as the keyboard arrows, ignored
unless `gameState === 'PLAYING'`. -/
def handleTouch (d : Direction) (g : Game) : Game :=
  if g.gameState ≠ GameState.PLAYING then g
  else
    { g with direction :=
        match d with
        | Direction.UP =>
          if g.direction ≠ Direction.DOWN then Direction.UP else g.direction
        | Direction.DOWN =>
          if g.direction ≠ Direction.UP then Direction.DOWN else g.direction
        | Direction.LEFT =>
          if g.direction ≠ Direction.RIGHT then Direction.LEFT else g.direction
        | Direction.RIGHT =>
          if g.direction ≠ Direction.LEFT then Direction.RIGHT else g.direction }

/-- `resetGame`: initial snake, fresh food avoiding it, initial direction,
score 0, phase `START`.  `highScore` is untouched. -/
def resetGame (candidates : List Position) (g : Game) : Option Game :=
  (generateFood INITIAL_SNAKE candidates).map fun f =>
    { g with snake := INITIAL_SNAKE, food := f,
             direction := INITIAL_DIRECTION, score := 0,
             gameState := GameState.START }

/-- `startGame`: only acts when `gameState` is `START` or `GAME_OVER`; from
`GAME_OVER` it first runs `resetGame`; afterwards (the `setTimeout`) the phase
becomes `PLAYING`. -/
def startGame (candidates : List Position) (g : Game) : Option Game :=
  if g.gameState = GameState.START ∨ g.gameState = GameState.GAME_OVER then
    if g.gameState = GameState.GAME_OVER then
      (resetGame candidates g).map fun g2 =>
        { g2 with gameState := GameState.PLAYING }
    else
      some { g with gameState := GameState.PLAYING }
  else
    some g

/-- `togglePause`: `PLAYING ↔ PAUSED`, no-op elsewhere. -/
def togglePause (g : Game) : Game :=
  if g.gameState = GameState.PLAYING then { g with gameState := GameState.PAUSED }
  else if g.gameState = GameState.PAUSED then
    { g with gameState := GameState.PLAYING }
  else g

/-- Value of a decimal digit character. -/
def digitsToNat (ds : List Char) : Nat :=
  ds.foldl (fun acc c => acc * 10 + (c.toNat - 48)) 0

/-- JavaScript `parseInt(s)` (decimal): skip leading whitespace, optional sign,
then the longest run of leading decimal digits; `none` models `NaN` when no
digit is found.  (The `0x` hexadecimal special case is irrelevant here and
omitted.) -/
def jsParseInt (s : String) : Option Int :=
  let cs := s.toList.dropWhile fun c => c = ' ' ∨ c = '\t' ∨ c = '\n' ∨ c = '\r'
  match cs with
  | '-' :: rest =>
    let ds := rest.takeWhile Char.isDigit
    if ds.isEmpty then none else some (-(digitsToNat ds : Int))
  | '+' :: rest =>
    let ds := rest.takeWhile Char.isDigit
    if ds.isEmpty then none else some (digitsToNat ds : Int)
  | rest =>
    let ds := rest.takeWhile Char.isDigit
    if ds.isEmpty then none else some (digitsToNat ds : Int)

/-- `parseInt(localStorage.getItem('snakeHighScore') || '0')`: `getItem`
returns `null` (here `none`) when the key is absent; `null` and the empty
string are falsy, so they fall back to `"0"`.  A `none` result models the
`NaN` high score produced by an unparsable stored string. -/
def loadHighScore (stored : Option String) : Option Int :=
  let s := match stored with
    | none => "0"
    | some str => if str = "" then "0" else str
  jsParseInt s

/-- The externally triggered operations on the engine state.  Each food-placing
operation carries the random samples it consumes; `tick` fires only while
`PLAYING` (the interval is cleared otherwise). -/
inductive Op where
  | tick (candidates : List Position)
  | key (k : String)
  | touch (d : Direction)
  | start (candidates : List Position)
  | pauseToggle
  | reset (candidates : List Position)

/-- One event-loop step: dispatch an operation to its handler. -/
def applyOp (gridWidth gridHeight : Int) (op : Op) (g : Game) : Option Game :=
  match op with
  | Op.tick candidates =>
    if g.gameState = GameState.PLAYING then
      moveSnake gridWidth gridHeight candidates g
    else some g
  | Op.key k => some (handleKeyPress k g)
  | Op.touch d => some (handleTouch d g)
  | Op.start candidates => startGame candidates g
  | Op.pauseToggle => some (togglePause g)
  | Op.reset candidates => resetGame candidates g

/-- All states traversed while running a list of operations, initial state
included. -/
def traceStates (gridWidth gridHeight : Int) (ops : List Op) (g : Game) :
    Option (List Game) :=
  match ops with
  | [] => some [g]
  | op :: rest =>
    (applyOp gridWidth gridHeight op g).bind fun g2 =>
      (traceStates gridWidth gridHeight rest g2).map fun gs => g :: gs

/-- Spec-side helper (§4.4): the direct opposite of a direction. -/
def opposite (d : Direction) : Direction :=
  match d with
  | Direction.UP => Direction.DOWN
  | Direction.DOWN => Direction.UP
  | Direction.LEFT => Direction.RIGHT
  | Direction.RIGHT => Direction.LEFT

/-- Spec-side helper: the keyboard key naming a direction. -/
def dirKey (d : Direction) : String :=
  match d with
  | Direction.UP => "ArrowUp"
  | Direction.DOWN => "ArrowDown"
  | Direction.LEFT => "ArrowLeft"
  | Direction.RIGHT => "ArrowRight"

/-- Concrete running state used as witness input: length-1 snake one step left
of the food on a 5×5 grid (§8 scenario). -/
def gEatPre : Game :=
  { snake := [{ x := 3, y := 2 }], food := { x := 4, y := 2 },
    direction := Direction.RIGHT, gameState := GameState.PLAYING,
    score := 0, highScore := 0 }

/-- The state `gEatPre` reaches in one tick on the 5×5 grid with the sample
stream `[(0,0)]`: the food is eaten. -/
def gEatPost : Game :=
  { snake := [{ x := 4, y := 2 }, { x := 3, y := 2 }],
    food := { x := 0, y := 0 },
    direction := Direction.RIGHT, gameState := GameState.PLAYING,
    score := 10, highScore := 10 }

/-- Concrete running state at the right-most column of a 5×5 grid: the next
tick hits the wall. -/
def gWallPre : Game :=
  { snake := [{ x := 4, y := 2 }], food := { x := 0, y := 0 },
    direction := Direction.RIGHT, gameState := GameState.PLAYING,
    score := 0, highScore := 0 }

/-- Concrete paused state. -/
def gPausedDemo : Game :=
  { snake := [{ x := 3, y := 2 }], food := { x := 4, y := 2 },
    direction := Direction.RIGHT, gameState := GameState.PAUSED,
    score := 0, highScore := 0 }

/-- The state `resetGame` produces from `gEatPre` with the sample stream
`[(0,0)]`. -/
def gResetPost : Game :=
  { snake := [{ x := 10, y := 10 }], food := { x := 0, y := 0 },
    direction := Direction.RIGHT, gameState := GameState.START,
    score := 0, highScore := 0 }

/-! ## Helper lemmas -/

theorem sameCell_iff (s c : Position) : sameCell s c = true ↔ s = c := by
  simp [sameCell, Position.ext_iff]

theorem any_sameCell_iff (body : List Position) (c : Position) :
    (body.any fun segment => sameCell segment c) = true ↔ c ∈ body := by
  simp only [List.any_eq_true, sameCell_iff]
  constructor
  · rintro ⟨s, hs, rfl⟩; exact hs
  · intro hc; exact ⟨c, hc, rfl⟩

theorem checkCollision_true_iff (gw gh : Int) (head : Position)
    (body : List Position) :
    checkCollision gw gh head body = true ↔
      head.x < 0 ∨ head.x ≥ gw ∨ head.y < 0 ∨ head.y ≥ gh ∨ head ∈ body := by
  unfold checkCollision
  split
  · rename_i hwall
    simp only [true_iff]
    tauto
  · rename_i hwall
    rw [any_sameCell_iff]
    push_neg at hwall
    constructor
    · intro h; tauto
    · rintro (h | h | h | h | h) <;> first
        | exact absurd h (by omega)
        | exact h

theorem checkCollision_false_iff (gw gh : Int) (head : Position)
    (body : List Position) :
    checkCollision gw gh head body = false ↔
      0 ≤ head.x ∧ head.x < gw ∧ 0 ≤ head.y ∧ head.y < gh ∧ head ∉ body := by
  rw [← Bool.not_eq_true, checkCollision_true_iff]
  push_neg
  constructor
  · rintro ⟨h1, h2, h3, h4, h5⟩; exact ⟨by omega, by omega, by omega, by omega, h5⟩
  · rintro ⟨h1, h2, h3, h4, h5⟩; exact ⟨by omega, by omega, by omega, by omega, h5⟩

/-- The rejection-sampling loop only ever returns a cell outside the snake. -/
theorem generateFood_not_mem (currentSnake : List Position) :
    ∀ (candidates : List Position) (f : Position),
      generateFood currentSnake candidates = some f → f ∉ currentSnake := by
  intro candidates
  induction candidates with
  | nil => intro f h; simp [generateFood] at h
  | cons c rest ih =>
    intro f h
    unfold generateFood at h
    split at h
    · exact ih f h
    · rename_i hocc
      cases h
      intro hmem
      exact hocc ((any_sameCell_iff _ _).mpr hmem)

/-! ## Claim theorems -/

/-- C1: every non-fatal tick keeps the snake length unchanged, except when the
new head equals the food cell, in which case the length grows by one (the tail
pop is skipped) and the score increases by exactly 10. -/
theorem advance_length_score (gw gh : Int) (candidates : List Position)
    (g g' : Game) (_hne : g.snake ≠ [])
    (hsafe : checkCollision gw gh (newHead g) g.snake = false)
    (h : moveSnake gw gh candidates g = some g') :
    (newHead g = g.food →
       g'.snake.length = g.snake.length + 1 ∧ g'.score = g.score + 10) ∧
    (newHead g ≠ g.food →
       g'.snake.length = g.snake.length ∧ g'.score = g.score) := by
  simp only [moveSnake, hsafe, Bool.false_eq_true, if_false] at h
  by_cases hf : newHead g = g.food
  · rw [if_pos hf] at h
    rcases Option.map_eq_some'.mp h with ⟨nf, hnf, rfl⟩
    exact ⟨fun _ => ⟨by simp, rfl⟩, fun hne2 => absurd hf hne2⟩
  · rw [if_neg hf] at h
    cases h
    exact ⟨fun heq => absurd heq hf,
      fun _ => ⟨by simp [List.length_dropLast], rfl⟩⟩

/-- C2: a tick whose new head leaves the grid `[0,gw)×[0,gh)` or hits a cell of
the current body (tail included) moves the phase from `PLAYING` to `GAME_OVER`
and leaves snake, food and score untouched. -/
theorem advance_fatal (gw gh : Int) (candidates : List Position) (g g' : Game)
    (_hph : g.gameState = GameState.PLAYING)
    (hfatal : (newHead g).x < 0 ∨ (newHead g).x ≥ gw ∨ (newHead g).y < 0 ∨
      (newHead g).y ≥ gh ∨ newHead g ∈ g.snake)
    (h : moveSnake gw gh candidates g = some g') :
    g'.gameState = GameState.GAME_OVER ∧ g'.snake = g.snake ∧
      g'.food = g.food ∧ g'.score = g.score := by
  have hcc : checkCollision gw gh (newHead g) g.snake = true :=
    (checkCollision_true_iff gw gh (newHead g) g.snake).mpr hfatal
  simp only [moveSnake, hcc, if_true] at h
  cases h
  exact ⟨rfl, rfl, rfl, rfl⟩

/-- C3: pairwise distinctness of the body cells is preserved by every
non-fatal tick. -/
theorem advance_nodup (gw gh : Int) (candidates : List Position) (g g' : Game)
    (hnodup : g.snake.Nodup)
    (hsafe : checkCollision gw gh (newHead g) g.snake = false)
    (h : moveSnake gw gh candidates g = some g') :
    g'.snake.Nodup := by
  have hnm : newHead g ∉ g.snake :=
    ((checkCollision_false_iff gw gh (newHead g) g.snake).mp hsafe).2.2.2.2
  have hcons : (newHead g :: g.snake).Nodup := List.nodup_cons.mpr ⟨hnm, hnodup⟩
  simp only [moveSnake, hsafe, Bool.false_eq_true, if_false] at h
  by_cases hf : newHead g = g.food
  · rw [if_pos hf] at h
    rcases Option.map_eq_some'.mp h with ⟨nf, hnf, rfl⟩
    exact hcons
  · rw [if_neg hf] at h
    cases h
    exact List.Nodup.sublist (List.dropLast_sublist _) hcons

/-- C4: `generateFood` (the rejection-sampling loop) only ever returns a cell
outside the given body, and consequently the food cell stays outside the snake
body across every tick. -/
theorem food_outside_body :
    (∀ (currentSnake candidates : List Position) (f : Position),
        generateFood currentSnake candidates = some f → f ∉ currentSnake) ∧
    (∀ (gw gh : Int) (candidates : List Position) (g g' : Game),
        g.food ∉ g.snake → moveSnake gw gh candidates g = some g' →
        g'.food ∉ g'.snake) := by
  constructor
  · exact fun s c f h => generateFood_not_mem s c f h
  · intro gw gh candidates g g' hfs h
    simp only [moveSnake] at h
    split at h
    · cases h
      exact hfs
    · rename_i hsafe
      split at h
      · rename_i hf
        rcases Option.map_eq_some'.mp h with ⟨nf, hnf, rfl⟩
        exact generateFood_not_mem _ _ _ hnf
      · rename_i hf
        cases h
        intro hmem
        rcases List.mem_cons.mp ((List.dropLast_sublist _).subset hmem) with
          heq | hmem2
        · exact hf heq.symm
        · exact hfs hmem2

/-- C5: a requested direction is rejected exactly when it is the direct
opposite of the current one (for both the touch buttons and the keyboard
arrows), and direction requests are ignored entirely while the phase is not
`PLAYING`. -/
theorem requestDirection_spec :
    (∀ (g : Game) (d : Direction), g.gameState = GameState.PLAYING →
        (handleTouch d g).direction =
          if d = opposite g.direction then g.direction else d) ∧
    (∀ (g : Game) (d : Direction), g.gameState = GameState.PLAYING →
        (handleKeyPress (dirKey d) g).direction =
          if d = opposite g.direction then g.direction else d) ∧
    (∀ (g : Game) (d : Direction), g.gameState ≠ GameState.PLAYING →
        handleTouch d g = g) ∧
    (∀ (g : Game) (k : String), g.gameState ≠ GameState.PLAYING →
        handleKeyPress k g = g) := by
  refine ⟨?_, ?_, ?_, ?_⟩
  · intro g d hph
    have h1 : ¬ (g.gameState ≠ GameState.PLAYING) := by simp [hph]
    unfold handleTouch
    rw [if_neg h1]
    cases d <;> cases hd : g.direction <;> simp [opposite, hd]
  · intro g d hph
    have h1 : ¬ (g.gameState ≠ GameState.PLAYING) := by simp [hph]
    cases d
    case UP =>
      simp only [dirKey, handleKeyPress]
      rw [if_neg h1, if_pos (by decide)]
      cases hd : g.direction <;> simp [opposite, hd]
    case DOWN =>
      simp only [dirKey, handleKeyPress]
      rw [if_neg h1, if_neg (by decide), if_pos (by decide)]
      cases hd : g.direction <;> simp [opposite, hd]
    case LEFT =>
      simp only [dirKey, handleKeyPress]
      rw [if_neg h1, if_neg (by decide), if_neg (by decide), if_pos (by decide)]
      cases hd : g.direction <;> simp [opposite, hd]
    case RIGHT =>
      simp only [dirKey, handleKeyPress]
      rw [if_neg h1, if_neg (by decide), if_neg (by decide), if_neg (by decide),
        if_pos (by decide)]
      cases hd : g.direction <;> simp [opposite, hd]
  · intro g d hph
    unfold handleTouch
    rw [if_pos hph]
  · intro g k hph
    unfold handleKeyPress
    rw [if_pos hph]

/-- C7: the persisted high score is `parseInt(stored || '0')`; an absent (or
empty) stored value yields 0, but an unparsable string such as `"abc"` yields
`NaN` (modelled `none`), not 0. -/
theorem loadHighScore_eval :
    loadHighScore none = some 0 ∧ loadHighScore (some "") = some 0 ∧
      loadHighScore (some "abc") = none := by
  refine ⟨by decide, by decide, by decide⟩

/-- C8: a start command while `PLAYING` or `PAUSED` leaves the whole state
unchanged; from `GAME_OVER` it resets snake, food, direction and score and
then enters `PLAYING`. -/
theorem startGame_spec (candidates : List Position) (g : Game) :
    ((g.gameState = GameState.PLAYING ∨ g.gameState = GameState.PAUSED) →
        startGame candidates g = some g) ∧
    (∀ g', g.gameState = GameState.GAME_OVER →
        startGame candidates g = some g' →
        g'.snake = INITIAL_SNAKE ∧ g'.direction = INITIAL_DIRECTION ∧
        g'.score = 0 ∧ g'.gameState = GameState.PLAYING ∧
        generateFood INITIAL_SNAKE candidates = some g'.food ∧
        g'.highScore = g.highScore) := by
  constructor
  · rintro (hph | hph) <;> simp [startGame, hph]
  · intro g' hph h
    rcases hgen : generateFood INITIAL_SNAKE candidates with _ | f
    · simp [startGame, resetGame, hph, hgen] at h
    · simp only [startGame, resetGame, hph, hgen, Option.map_some'] at h
      simp only [reduceCtorEq, or_true, if_true, if_pos rfl,
        Option.some.injEq] at h
      subst h
      exact ⟨rfl, rfl, rfl, rfl, rfl, rfl⟩

/-- C9: the keyboard can only ever pause: any key while the phase is not
`PLAYING` leaves the whole state unchanged, the spacebar while `PLAYING` moves
the phase to `PAUSED`, and no key ever moves a `PAUSED` game back to
`PLAYING`. -/
theorem keyboard_pause_only :
    (∀ (g : Game) (k : String), g.gameState ≠ GameState.PLAYING →
        handleKeyPress k g = g) ∧
    (∀ g : Game, g.gameState = GameState.PLAYING →
        (handleKeyPress " " g).gameState = GameState.PAUSED) ∧
    (∀ (g : Game) (k : String), g.gameState = GameState.PAUSED →
        (handleKeyPress k g).gameState = GameState.PAUSED) := by
  have hignore : ∀ (g : Game) (k : String),
      g.gameState ≠ GameState.PLAYING → handleKeyPress k g = g := by
    intro g k h
    unfold handleKeyPress
    rw [if_pos h]
  refine ⟨hignore, ?_, ?_⟩
  · intro g hph
    have h1 : ¬ (g.gameState ≠ GameState.PLAYING) := by simp [hph]
    simp only [handleKeyPress]
    rw [if_neg h1, if_neg (by decide), if_neg (by decide), if_neg (by decide),
      if_neg (by decide), if_pos (by decide)]
  · intro g k hph
    rw [hignore g k (by simp [hph])]
    exact hph

/-- C10: every reset yields the one-cell snake at (10,10), direction `RIGHT`,
score 0, phase `START`, a food cell outside the snake, and an untouched high
score. -/
theorem resetGame_spec (candidates : List Position) (g g' : Game)
    (h : resetGame candidates g = some g') :
    g'.snake = [{ x := 10, y := 10 }] ∧ g'.direction = Direction.RIGHT ∧
      g'.score = 0 ∧ g'.gameState = GameState.START ∧ g'.food ∉ g'.snake ∧
      g'.highScore = g.highScore := by
  simp only [resetGame] at h
  rcases Option.map_eq_some'.mp h with ⟨f, hf, rfl⟩
  exact ⟨rfl, rfl, rfl, rfl, generateFood_not_mem _ _ _ hf, rfl⟩

/-! ## High-score trace development (C6) -/

theorem handleKeyPress_score_highScore (k : String) (g : Game) :
    (handleKeyPress k g).score = g.score ∧
      (handleKeyPress k g).highScore = g.highScore := by
  simp only [handleKeyPress]
  split_ifs <;> exact ⟨rfl, rfl⟩

theorem handleTouch_score_highScore (d : Direction) (g : Game) :
    (handleTouch d g).score = g.score ∧
      (handleTouch d g).highScore = g.highScore := by
  simp only [handleTouch]
  split_ifs <;> exact ⟨rfl, rfl⟩

theorem togglePause_score_highScore (g : Game) :
    (togglePause g).score = g.score ∧
      (togglePause g).highScore = g.highScore := by
  simp only [togglePause]
  split_ifs <;> exact ⟨rfl, rfl⟩

/-- One event-loop step: the high score afterwards is the maximum of the high
score before and the score afterwards, and `score ≤ highScore` together with
`0 ≤ highScore` is invariant. -/
theorem applyOp_highScore_step (gw gh : Int) (op : Op) (g g' : Game)
    (hsc : g.score ≤ g.highScore) (h0 : 0 ≤ g.highScore)
    (h : applyOp gw gh op g = some g') :
    g'.highScore = max g.highScore g'.score ∧ g'.score ≤ g'.highScore ∧
      0 ≤ g'.highScore := by
  have hmax : max g.highScore g.score = g.highScore := max_eq_left hsc
  cases op with
  | tick candidates =>
    simp only [applyOp] at h
    split at h
    · simp only [moveSnake] at h
      split at h
      · cases h
        exact ⟨hmax.symm, hsc, h0⟩
      · split at h
        · rcases Option.map_eq_some'.mp h with ⟨nf, hnf, rfl⟩
          refine ⟨?_, ?_, ?_⟩ <;> simp only
          · rcases le_or_lt (g.score + 10) g.highScore with hle | hlt
            · rw [if_neg (by omega), max_eq_left hle]
            · rw [if_pos (by omega), max_eq_right hlt.le]
          · split_ifs <;> omega
          · split_ifs <;> omega
        · cases h
          exact ⟨hmax.symm, hsc, h0⟩
    · cases h
      exact ⟨hmax.symm, hsc, h0⟩
  | key k =>
    simp only [applyOp] at h
    cases h
    obtain ⟨e1, e2⟩ := handleKeyPress_score_highScore k g
    rw [e1, e2]
    exact ⟨hmax.symm, hsc, h0⟩
  | touch d =>
    simp only [applyOp] at h
    cases h
    obtain ⟨e1, e2⟩ := handleTouch_score_highScore d g
    rw [e1, e2]
    exact ⟨hmax.symm, hsc, h0⟩
  | start candidates =>
    simp only [applyOp, startGame] at h
    split at h
    · split at h
      · simp only [resetGame, Option.map_map] at h
        rcases Option.map_eq_some'.mp h with ⟨f, hf, rfl⟩
        exact ⟨(max_eq_left h0).symm, h0, h0⟩
      · cases h
        exact ⟨hmax.symm, hsc, h0⟩
    · cases h
      exact ⟨hmax.symm, hsc, h0⟩
  | pauseToggle =>
    simp only [applyOp] at h
    cases h
    obtain ⟨e1, e2⟩ := togglePause_score_highScore g
    rw [e1, e2]
    exact ⟨hmax.symm, hsc, h0⟩
  | reset candidates =>
    simp only [applyOp, resetGame] at h
    rcases Option.map_eq_some'.mp h with ⟨f, hf, rfl⟩
    exact ⟨(max_eq_left h0).symm, h0, h0⟩

theorem traceStates_head (gw gh : Int) (ops : List Op) (g : Game)
    (gs : List Game) (h : traceStates gw gh ops g = some gs) :
    ∃ rest, gs = g :: rest := by
  cases ops with
  | nil =>
    simp only [traceStates] at h
    cases h
    exact ⟨[], rfl⟩
  | cons op rest =>
    simp only [traceStates] at h
    rcases Option.bind_eq_some.mp h with ⟨g2, hg2, h2⟩
    rcases Option.map_eq_some'.mp h2 with ⟨gs2, hgs2, rfl⟩
    exact ⟨gs2, rfl⟩

/-- C6: along every run of the event loop from a state whose score does not
exceed its (non-negative) high score, the high score is monotonically
non-decreasing, each step updates it to the score exactly when the score
exceeds it (it equals `max` of the previous high score and the new score), and
at the end it equals the maximum of the initial high score and every score
observed along the run. -/
theorem highScore_spec (gw gh : Int) (ops : List Op) (g0 : Game)
    (gs : List Game) (hsc : g0.score ≤ g0.highScore) (h0 : 0 ≤ g0.highScore)
    (h : traceStates gw gh ops g0 = some gs) :
    List.Chain' (fun a b => a.highScore ≤ b.highScore) gs ∧
    List.Chain' (fun a b => b.highScore = max a.highScore b.score) gs ∧
    ∃ gl, gs.getLast? = some gl ∧
      gl.highScore = (gs.map Game.score).foldl max g0.highScore := by
  induction ops generalizing g0 gs with
  | nil =>
    simp only [traceStates] at h
    cases h
    refine ⟨List.chain'_singleton _, List.chain'_singleton _, g0, rfl, ?_⟩
    simp [max_eq_left hsc]
  | cons op rest ih =>
    simp only [traceStates] at h
    rcases Option.bind_eq_some.mp h with ⟨g1, hg1, h2⟩
    rcases Option.map_eq_some'.mp h2 with ⟨gs1, hgs1, rfl⟩
    obtain ⟨hstep, hsc1, h01⟩ := applyOp_highScore_step gw gh op g0 g1 hsc h0 hg1
    obtain ⟨hchain1, hchain2, gl, hlast, hfold⟩ := ih g1 gs1 hsc1 h01 hgs1
    obtain ⟨rest1, rfl⟩ := traceStates_head gw gh rest g1 gs1 hgs1
    refine ⟨?_, ?_, gl, ?_, ?_⟩
    · exact List.chain'_cons.mpr ⟨by rw [hstep]; exact le_max_left _ _, hchain1⟩
    · exact List.chain'_cons.mpr ⟨hstep, hchain2⟩
    · rw [List.getLast?_cons_cons]
      exact hlast
    · rw [hfold]
      simp only [List.map_cons, List.foldl_cons]
      rw [max_eq_left hsc1, hstep, max_eq_left hsc]

/-! ## Witnesses -/

/-- Witness for C1 at a concrete eating tick on the 5×5 grid. -/
theorem advance_length_score_witness :
    gEatPost.snake.length = gEatPre.snake.length + 1 ∧
      gEatPost.score = gEatPre.score + 10 :=
  (advance_length_score 5 5 [{ x := 0, y := 0 }] gEatPre gEatPost
    (by decide) (by decide) (by decide)).1 (by decide)

/-- Witness for C2 at a concrete wall collision on the 5×5 grid. -/
theorem advance_fatal_witness :
    ({ gWallPre with gameState := GameState.GAME_OVER } : Game).gameState =
        GameState.GAME_OVER ∧
      ({ gWallPre with gameState := GameState.GAME_OVER } : Game).snake =
        gWallPre.snake ∧
      ({ gWallPre with gameState := GameState.GAME_OVER } : Game).food =
        gWallPre.food ∧
      ({ gWallPre with gameState := GameState.GAME_OVER } : Game).score =
        gWallPre.score :=
  advance_fatal 5 5 [] gWallPre { gWallPre with gameState := GameState.GAME_OVER }
    (by decide) (by decide) (by decide)

/-- Witness for C3 at the concrete eating tick. -/
theorem advance_nodup_witness : gEatPost.snake.Nodup :=
  advance_nodup 5 5 [{ x := 0, y := 0 }] gEatPre gEatPost
    (by decide) (by decide) (by decide)

/-- Witness for C4 on the initial snake with sample stream `[(0,0)]`. -/
theorem food_outside_body_witness :
    ({ x := 0, y := 0 } : Position) ∉ [({ x := 10, y := 10 } : Position)] :=
  food_outside_body.1 [{ x := 10, y := 10 }] [{ x := 0, y := 0 }]
    { x := 0, y := 0 } (by decide)

/-- Witness for C5: requesting `UP` while running rightwards. -/
theorem requestDirection_spec_witness :
    (handleTouch Direction.UP gEatPre).direction =
      if Direction.UP = opposite gEatPre.direction then gEatPre.direction
      else Direction.UP :=
  requestDirection_spec.1 gEatPre Direction.UP (by decide)

/-- Witness for C6 on the empty run from `gEatPre`. -/
theorem highScore_spec_witness :
    List.Chain' (fun a b => a.highScore ≤ b.highScore) [gEatPre] ∧
    List.Chain' (fun a b => b.highScore = max a.highScore b.score) [gEatPre] ∧
    ∃ gl, ([gEatPre].getLast? = some gl ∧
      gl.highScore = ([gEatPre].map Game.score).foldl max gEatPre.highScore) :=
  highScore_spec 25 20 [] gEatPre [gEatPre] (by decide) (by decide) rfl

/-- Witness for C8: a start command while paused is a no-op. -/
theorem startGame_spec_witness : startGame [] gPausedDemo = some gPausedDemo :=
  (startGame_spec [] gPausedDemo).1 (Or.inr rfl)

/-- Witness for C9: spacebar pauses the concrete running state. -/
theorem keyboard_pause_only_witness :
    (handleKeyPress " " gEatPre).gameState = GameState.PAUSED :=
  keyboard_pause_only.2.1 gEatPre (by decide)

/-- Witness for C10: resetting `gEatPre` with sample stream `[(0,0)]`. -/
theorem resetGame_spec_witness :
    gResetPost.snake = [{ x := 10, y := 10 }] ∧
      gResetPost.direction = Direction.RIGHT ∧ gResetPost.score = 0 ∧
      gResetPost.gameState = GameState.START ∧
      gResetPost.food ∉ gResetPost.snake ∧
      gResetPost.highScore = gEatPre.highScore :=
  resetGame_spec [{ x := 0, y := 0 }] gEatPre gResetPost (by decide)

end SnakeApp
